import Mathlib

/-!
Verification of the K230 clock-tree driver (drivers/clk/clk-k230.c).

The driver's register-level operations are shallowly embedded: memory-mapped
registers become a state `RegState` mapping register offsets to natural-number
values, `readl`/`writel`/`readb`/`writeb` become explicit state passing with
32-bit (resp. 8-bit) truncation, and C machine arithmetic is modelled on `Nat`
with explicit `% 2^w` at the points where the C code truncates.  Each
definition mirrors one function or one static table of the source file.
-/

/-- One hardware register access, recorded so that theorems can state that a
rejected request touches no register. -/
inductive Access where
  | read  (off : Nat) : Access
  | write (off : Nat) (v : Nat) : Access
deriving DecidableEq, Repr

/-- Register bank state: value stored at each register offset. -/
def RegState : Type := Nat → Nat

/-- readl: 32-bit register read. -/
def readl (σ : RegState) (off : Nat) : Nat := σ off % 2 ^ 32

/-- writel: 32-bit register write (stores the low 32 bits). -/
def writel (σ : RegState) (off v : Nat) : RegState :=
  fun o => if o = off then v % 2 ^ 32 else σ o

/-- readb: byte-wide register read. -/
def readb (σ : RegState) (off : Nat) : Nat := σ off % 2 ^ 8

/-- writeb: byte-wide register write (stores the low 8 bits). -/
def writeb (σ : RegState) (off v : Nat) : RegState :=
  fun o => if o = off then v % 2 ^ 8 else σ o

/-- C `~x` on a `u32` operand: bitwise complement within 32 bits. -/
def compl32 (x : Nat) : Nat := (2 ^ 32 - 1) ^^^ x

/-- C `x - 1` on a `u32` operand (wraps at zero). -/
def c_sub1 (x : Nat) : Nat := (x + (2 ^ 32 - 1)) % 2 ^ 32

/-- Reinterpret a `u64` value as a C `long` (64-bit signed). -/
def toLong (n : Nat) : Int := if n < 2 ^ 63 then (n : Int) else (n : Int) - 2 ^ 64

/-- enum k230_clk_div_type. -/
inductive K230DivType where
  | K230_MUL
  | K230_DIV
  | K230_MUL_DIV
deriving DecidableEq, Repr

/-- struct k230_clk_rate_cfg (register pointers are represented by the
offset `rate_reg_off` into the clock register bank). -/
structure K230RateCfg where
  rate_reg_off : Nat
  rate_write_enable_bit : Nat
  method : K230DivType
  rate_mul_min : Nat
  rate_mul_max : Nat
  rate_mul_shift : Nat
  rate_mul_mask : Nat
  rate_div_min : Nat
  rate_div_max : Nat
  rate_div_shift : Nat
  rate_div_mask : Nat
deriving DecidableEq, Repr

/-- struct k230_clk_rate_cfg_c (secondary "changeable multiplier" register). -/
structure K230RateCfgC where
  rate_reg_off_c : Nat
  rate_write_enable_bit_c : Nat
  rate_mul_min_c : Nat
  rate_mul_max_c : Nat
  rate_mul_shift_c : Nat
  rate_mul_mask_c : Nat
deriving DecidableEq, Repr

/-- struct k230_clk_gate_cfg. -/
structure K230GateCfg where
  gate_reg_off : Nat
  gate_bit_enable : Nat
  gate_bit_reverse : Bool
deriving DecidableEq, Repr

/-- struct k230_clk_mux_cfg. -/
structure K230MuxCfg where
  mux_reg_off : Nat
  mux_reg_shift : Nat
  mux_reg_mask : Nat
deriving DecidableEq, Repr

/-- struct k230_clk_cfg (the parts the verified operations consume; parent
references are summarised by `num_parent`, as the registration check only
inspects the parent count). -/
structure K230ClkCfg where
  name : String
  read_only : Bool
  num_parent : Nat
  rate_cfg : Option K230RateCfg
  rate_cfg_c : Option K230RateCfgC
  gate_cfg : Option K230GateCfg
  mux_cfg : Option K230MuxCfg
deriving DecidableEq, Repr

/-- k230_pll_get_rate: the three PLL registers it reads are passed as values
(`bypass`, `lock`, `div`); the PLL rate equation from the source, with the
`mul_u64_u32_div` quotient truncated to 64 bits as on hardware.
K230_PLL_BYPASS_ENABLE = BIT(19), K230_PLL_STATUS_MASK = BIT(0),
R field = bits 16..21, F field = bits 0..16, OD field = bits 24..27. -/
def k230_pll_get_rate (bypass lock div : Nat) (parent_rate : Nat) : Nat :=
  if (bypass % 2 ^ 32) &&& (1 <<< 19) ≠ 0 then
    parent_rate
  else if (lock % 2 ^ 32) &&& 1 = 0 then
    0
  else
    let reg := div % 2 ^ 32
    let r := ((reg >>> 16) &&& 0x3F) + 1
    let f := ((reg >>> 0) &&& 0x1FFFF) + 1
    let od := ((reg >>> 24) &&& 0xF) + 1
    parent_rate * f / (r * od) % 2 ^ 64

/-- K230_CLK_AUDIO_CLKDIV_OFFSET. -/
def K230_CLK_AUDIO_CLKDIV_OFFSET : Nat := 0x34
/-- K230_CLK_PDM_CLKDIV_OFFSET. -/
def K230_CLK_PDM_CLKDIV_OFFSET : Nat := 0x40
/-- K230_CLK_CODEC_ADC_MCLKDIV_OFFSET. -/
def K230_CLK_CODEC_ADC_MCLKDIV_OFFSET : Nat := 0x38
/-- K230_CLK_CODEC_DAC_MCLKDIV_OFFSET. -/
def K230_CLK_CODEC_DAC_MCLKDIV_OFFSET : Nat := 0x3c

/-- codec_clk table from k230_clk_find_approximate. -/
def codec_clk : List Nat :=
  [2048000, 3072000, 4096000, 6144000, 8192000, 11289600, 12288000,
   24576000, 49152000]

/-- codec_div table (div, mul pairs) from k230_clk_find_approximate. -/
def codec_div : List (Nat × Nat) :=
  [(3125, 16), (3125, 24), (3125, 32), (3125, 48), (3125, 64), (15625, 441),
   (3125, 96), (3125, 192), (3125, 384)]

/-- pdm_clk table from k230_clk_find_approximate. -/
def pdm_clk : List Nat :=
  [128000, 192000, 256000, 384000, 512000, 768000, 1024000, 1411200,
   1536000, 2048000, 2822400, 3072000, 4096000, 5644800, 6144000, 8192000,
   11289600, 12288000, 24576000, 49152000]

/-- pdm_div table (div, mul pairs) from k230_clk_find_approximate. -/
def pdm_div : List (Nat × Nat) :=
  [(3125, 1), (6250, 3), (3125, 2), (3125, 3), (3125, 4), (3125, 6),
   (3125, 8), (125000, 441), (3125, 12), (3125, 16), (62500, 441),
   (3125, 24), (3125, 32), (31250, 441), (3125, 48), (3125, 64),
   (15625, 441), (3125, 96), (3125, 192), (3125, 384)]

/-- perfect_divide of k230_clk_find_approximate:
`(long)((parent_rate * 1000) / rate)` with `parent_rate * 1000` computed in
64-bit unsigned arithmetic. -/
def k230_perfect_divide (parent_rate rate : Nat) : Int :=
  toLong (parent_rate * 1000 % 2 ^ 64 / rate)

/-- Deviation of a candidate multiplier `i` in the K230_MUL branch:
`abs(perfect_divide - (long)(((long)div_max * 1000) / (long)i))`. -/
def k230_mul_dev (div_max : Nat) (pd : Int) (i : Nat) : Nat :=
  (pd - ((div_max * 1000 / i : Nat) : Int)).natAbs

/-- Deviation of a candidate divisor `i` in the K230_DIV branch:
`abs(perfect_divide - (long)(((long)i * 1000) / (long)mul_max))`. -/
def k230_div_dev (mul_max : Nat) (pd : Int) (i : Nat) : Nat :=
  (pd - ((i * 1000 / mul_max : Nat) : Int)).natAbs

/-- The scan loop shared by the K230_MUL and K230_DIV branches of
k230_clk_find_approximate: starting from current best `(abs_min, cand)`,
try `n` further candidates `i, i+1, ...`, replacing the best only on a
strictly smaller deviation. -/
def k230_scan (dev : Nat → Nat) (best : Nat × Nat) (i n : Nat) : Nat × Nat :=
  match n with
  | 0 => best
  | n + 1 =>
    let c := dev i
    k230_scan dev (if c < best.1 then (c, i) else best) (i + 1) n

/-- k230_clk_find_approximate.  `rate_reg_off` is the clock's
`rate_cfg->rate_reg_off`; `div0`/`mul0` are the caller-supplied initial values
behind the `div`/`mul` out-pointers (both callers pass 0).  Returns
`Except.error (-22)` exactly where the C code returns `-EINVAL`, otherwise
the final `(div, mul)` pair. -/
def k230_clk_find_approximate (rate_reg_off : Nat)
    (mul_min mul_max div_min div_max : Nat) (method : K230DivType)
    (rate parent_rate : Nat) (div0 mul0 : Nat) : Except Int (Nat × Nat) :=
  match method with
  | .K230_MUL =>
    let pd := k230_perfect_divide parent_rate rate
    let best := k230_scan (k230_mul_dev div_max pd)
      (k230_mul_dev div_max pd mul_min, mul_min) (mul_min + 1)
      (mul_max - mul_min)
    .ok (div_max, best.2)
  | .K230_DIV =>
    let pd := k230_perfect_divide parent_rate rate
    let best := k230_scan (k230_div_dev mul_max pd)
      (k230_div_dev mul_max pd div_min, div_min) (div_min + 1)
      (div_max - div_min)
    .ok (best.2, mul_max)
  | .K230_MUL_DIV =>
    if rate_reg_off = K230_CLK_CODEC_ADC_MCLKDIV_OFFSET ∨
       rate_reg_off = K230_CLK_CODEC_DAC_MCLKDIV_OFFSET then
      .ok ((codec_clk.zip codec_div).foldl
        (fun acc cd => if rate = cd.1 then cd.2 else acc) (div0, mul0))
    else if rate_reg_off = K230_CLK_AUDIO_CLKDIV_OFFSET ∨
            rate_reg_off = K230_CLK_PDM_CLKDIV_OFFSET then
      .ok ((pdm_clk.zip pdm_div).foldl
        (fun acc cd => if rate = cd.1 then cd.2 else acc) (div0, mul0))
    else
      .error (-22)

/-- k230_clk_round_rate: runs the approximation engine read-only with the
clock's rate configuration (initial div/mul of 0) and reports
`div_u64((u64)(*parent_rate) * mul, div)`; on engine failure the C code logs
and returns 0. -/
def k230_clk_round_rate (rc : K230RateCfg) (rate parent_rate : Nat) : Nat :=
  match k230_clk_find_approximate rc.rate_reg_off rc.rate_mul_min
      rc.rate_mul_max rc.rate_div_min rc.rate_div_max rc.method rate
      parent_rate 0 0 with
  | .error _ => 0
  | .ok (div, mul) => parent_rate * mul % 2 ^ 64 / div

/-- k230_clk_get_rate: returns the computed rate together with the list of
register accesses performed.  With no rate config it returns the parent rate
without touching a register; otherwise it resolves (mul, div) per method and
returns `div_u64((u64)parent_rate * mul, div)`. -/
def k230_clk_get_rate (rate_cfg : Option K230RateCfg)
    (rate_cfg_c : Option K230RateCfgC) (parent_rate : Nat) (σ : RegState) :
    Nat × List Access :=
  match rate_cfg with
  | none => (parent_rate, [])
  | some rc =>
    match rc.method with
    | .K230_MUL =>
      let div := rc.rate_div_max
      let mul := (readl σ rc.rate_reg_off >>> rc.rate_div_shift) &&&
        rc.rate_div_mask
      let mul := (mul + 1) % 2 ^ 32
      (parent_rate * mul % 2 ^ 64 / div, [.read rc.rate_reg_off])
    | .K230_DIV =>
      let mul := rc.rate_mul_max
      let div := (readl σ rc.rate_reg_off >>> rc.rate_div_shift) &&&
        rc.rate_div_mask
      let div := (div + 1) % 2 ^ 32
      (parent_rate * mul % 2 ^ 64 / div, [.read rc.rate_reg_off])
    | .K230_MUL_DIV =>
      match rate_cfg_c with
      | none =>
        let mul := (readl σ rc.rate_reg_off >>> rc.rate_mul_shift) &&&
          rc.rate_mul_mask
        let div := (readl σ rc.rate_reg_off >>> rc.rate_div_shift) &&&
          rc.rate_div_mask
        (parent_rate * mul % 2 ^ 64 / div,
         [.read rc.rate_reg_off, .read rc.rate_reg_off])
      | some rcc =>
        let mul := (readl σ rcc.rate_reg_off_c >>> rcc.rate_mul_shift_c) &&&
          rcc.rate_mul_mask_c
        let div := (readl σ rc.rate_reg_off >>> rc.rate_div_shift) &&&
          rc.rate_div_mask
        (parent_rate * mul % 2 ^ 64 / div,
         [.read rcc.rate_reg_off_c, .read rc.rate_reg_off])

/-- k230_clk_set_rate: returns the C result (0 becomes `Except.ok ()`,
`-EINVAL`/`-EPERM` become errors), the new register state, and the register
accesses performed, mirroring the source's validation order and register
write protocol. -/
def k230_clk_set_rate (read_only : Bool) (rc : K230RateCfg)
    (rate_cfg_c : Option K230RateCfgC) (rate parent_rate : Nat)
    (σ : RegState) : Except Int Unit × RegState × List Access :=
  if rate > parent_rate ∨ rate = 0 ∨ parent_rate = 0 then
    (.error (-22), σ, [])
  else if read_only then
    (.error (-1), σ, [])
  else
    match k230_clk_find_approximate rc.rate_reg_off rc.rate_mul_min
        rc.rate_mul_max rc.rate_div_min rc.rate_div_max rc.method rate
        parent_rate 0 0 with
    | .error _ => (.error (-22), σ, [])
    | .ok (div, mul) =>
      match rate_cfg_c with
      | none =>
        let reg := readl σ rc.rate_reg_off
        let reg := reg &&& compl32 ((rc.rate_div_mask <<< rc.rate_div_shift) % 2 ^ 32)
        let reg :=
          match rc.method with
          | .K230_DIV =>
            (reg &&& compl32 ((rc.rate_mul_mask <<< rc.rate_mul_shift) % 2 ^ 32)) |||
              (((c_sub1 div &&& rc.rate_div_mask) <<< rc.rate_div_shift) % 2 ^ 32)
          | .K230_MUL =>
            reg ||| (((c_sub1 mul &&& rc.rate_div_mask) <<< rc.rate_div_shift) % 2 ^ 32)
          | .K230_MUL_DIV =>
            (reg ||| (((mul &&& rc.rate_mul_mask) <<< rc.rate_mul_shift) % 2 ^ 32)) |||
              (((div &&& rc.rate_div_mask) <<< rc.rate_div_shift) % 2 ^ 32)
        let reg := reg ||| ((1 <<< rc.rate_write_enable_bit) % 2 ^ 32)
        (.ok (), writel σ rc.rate_reg_off reg,
         [.read rc.rate_reg_off, .write rc.rate_reg_off (reg % 2 ^ 32)])
      | some rcc =>
        let reg := readl σ rc.rate_reg_off
        let reg_c := readl σ rcc.rate_reg_off_c
        let reg := reg &&& compl32 ((rc.rate_div_mask <<< rc.rate_div_shift) % 2 ^ 32)
        let reg_c := reg_c &&&
          compl32 ((rcc.rate_mul_mask_c <<< rcc.rate_mul_shift_c) % 2 ^ 32)
        let reg_c := reg_c ||| ((1 <<< rcc.rate_write_enable_bit_c) % 2 ^ 32)
        let reg_c := reg_c ||| (((mul &&& rcc.rate_mul_mask_c) <<< rcc.rate_mul_shift_c) % 2 ^ 32)
        let reg := reg ||| (((div &&& rc.rate_div_mask) <<< rc.rate_div_shift) % 2 ^ 32)
        let σ1 := writel σ rcc.rate_reg_off_c reg_c
        (.ok (), writel σ1 rc.rate_reg_off reg,
         [.read rc.rate_reg_off, .read rcc.rate_reg_off_c,
          .write rcc.rate_reg_off_c (reg_c % 2 ^ 32),
          .write rc.rate_reg_off (reg % 2 ^ 32)])

/-- k230_clk_enable: read-modify-write of the gate bit; for reversed polarity
the bit is cleared, otherwise set. -/
def k230_clk_enable (g : K230GateCfg) (σ : RegState) : RegState :=
  let reg := readl σ g.gate_reg_off
  let reg :=
    if g.gate_bit_reverse then
      reg &&& compl32 ((1 <<< g.gate_bit_enable) % 2 ^ 32)
    else
      reg ||| ((1 <<< g.gate_bit_enable) % 2 ^ 32)
  writel σ g.gate_reg_off reg

/-- k230_clk_disable: read-modify-write of the gate bit; for reversed
polarity the bit is set, otherwise cleared. -/
def k230_clk_disable (g : K230GateCfg) (σ : RegState) : RegState :=
  let reg := readl σ g.gate_reg_off
  let reg :=
    if g.gate_bit_reverse then
      reg ||| ((1 <<< g.gate_bit_enable) % 2 ^ 32)
    else
      reg &&& compl32 ((1 <<< g.gate_bit_enable) % 2 ^ 32)
  writel σ g.gate_reg_off reg

/-- k230_clk_is_enabled, exactly as the source tests it: for reversed
polarity it reports `BIT(bit) & reg`, otherwise `BIT(bit) & ~reg`
(1 = enabled, 0 = disabled). -/
def k230_clk_is_enabled (g : K230GateCfg) (σ : RegState) : Nat :=
  let reg := readl σ g.gate_reg_off
  if g.gate_bit_reverse then
    if ((1 <<< g.gate_bit_enable) % 2 ^ 32) &&& reg ≠ 0 then 1 else 0
  else
    if ((1 <<< g.gate_bit_enable) % 2 ^ 32) &&& compl32 reg ≠ 0 then 1 else 0

/-- k230_clk_set_parent: computes the u8 value
`(mux_reg_mask & index) << mux_reg_shift` (truncated to a byte, as the C
local is a `u8`) and writes that whole byte with writeb. -/
def k230_clk_set_parent (m : K230MuxCfg) (index : Nat) (σ : RegState) :
    RegState :=
  writeb σ m.mux_reg_off ((m.mux_reg_mask &&& index) <<< m.mux_reg_shift)

/-- k230_clk_get_parent: reads and returns the raw byte of the mux register
(the source performs no shift/mask extraction). -/
def k230_clk_get_parent (m : K230MuxCfg) (σ : RegState) : Nat :=
  readb σ m.mux_reg_off

/-- k230_register_clk, reduced to its only failure decision: a clock whose
config carries a mux must have at least 2 parents, otherwise registration
fails with `-EINVAL`.  (The framework registration call itself is an external
collaborator and is modelled as succeeding.) -/
def k230_register_clk (c : K230ClkCfg) : Except Int Unit :=
  if c.mux_cfg.isSome ∧ c.num_parent < 2 then .error (-22) else .ok ()

/-- k230_register_clks: walks the clock table in order, registering each
node and aborting the whole build on the first failure.  Returns the overall
result and the names of the nodes registered before the walk stopped. -/
def k230_register_clks : List K230ClkCfg → Except Int Unit × List String
  | [] => (.ok (), [])
  | c :: rest =>
    match k230_register_clk c with
    | .error e => (.error e, [])
    | .ok _ =>
      let r := k230_register_clks rest
      (r.1, c.name :: r.2)

/-- k230_cpu0_src_rate (K230_RATE_FORMAT(1, 16, 0, 0, 16, 16, 1, 0xf, 0x0,
31, K230_MUL)). -/
def k230_cpu0_src_rate : K230RateCfg :=
  { rate_reg_off := 0x0, rate_write_enable_bit := 31, method := .K230_MUL,
    rate_mul_min := 1, rate_mul_max := 16, rate_mul_shift := 0,
    rate_mul_mask := 0, rate_div_min := 16, rate_div_max := 16,
    rate_div_shift := 1, rate_div_mask := 0xF }

/-- k230_ls_uart0_rate (K230_RATE_FORMAT(1, 1, 0, 0, 1, 8, 0, 0x7, 0x2C, 31,
K230_DIV)). -/
def k230_ls_uart0_rate : K230RateCfg :=
  { rate_reg_off := 0x2C, rate_write_enable_bit := 31, method := .K230_DIV,
    rate_mul_min := 1, rate_mul_max := 1, rate_mul_shift := 0,
    rate_mul_mask := 0, rate_div_min := 1, rate_div_max := 8,
    rate_div_shift := 0, rate_div_mask := 0x7 }

/-- k230_cpu0_src_gate (K230_GATE_FORMAT(0, 0, false)). -/
def k230_cpu0_src_gate : K230GateCfg :=
  { gate_reg_off := 0, gate_bit_enable := 0, gate_bit_reverse := false }

/-- k230_pmu_pclk_gate (K230_GATE_FORMAT(0x10, 0, false)). -/
def k230_pmu_pclk_gate : K230GateCfg :=
  { gate_reg_off := 0x10, gate_bit_enable := 0, gate_bit_reverse := false }

/-- k230_hs_ospi_src_gate (K230_GATE_FORMAT(0x18, 24, false)). -/
def k230_hs_ospi_src_gate : K230GateCfg :=
  { gate_reg_off := 0x18, gate_bit_enable := 24, gate_bit_reverse := false }

/-- k230_hs_ospi_src_mux (K230_MUX_FORMAT(0x20, 18, 0x1)). -/
def k230_hs_ospi_src_mux : K230MuxCfg :=
  { mux_reg_off := 0x20, mux_reg_shift := 18, mux_reg_mask := 0x1 }

/-- k230_cpu0_src clock config (rate + gate, one parent pll0_div2). -/
def k230_cpu0_src : K230ClkCfg :=
  { name := "cpu0_src", read_only := false, num_parent := 1,
    rate_cfg := some k230_cpu0_src_rate, rate_cfg_c := none,
    gate_cfg := some k230_cpu0_src_gate, mux_cfg := none }

/-- k230_pmu_pclk clock config (gate only, one parent osc24m). -/
def k230_pmu_pclk : K230ClkCfg :=
  { name := "pmu_pclk", read_only := false, num_parent := 1,
    rate_cfg := none, rate_cfg_c := none,
    gate_cfg := some k230_pmu_pclk_gate, mux_cfg := none }

/-- k230_hs_ospi_src clock config (gate + mux, two parents). -/
def k230_hs_ospi_src : K230ClkCfg :=
  { name := "hs_ospi_src", read_only := false, num_parent := 2,
    rate_cfg := none, rate_cfg_c := none,
    gate_cfg := some k230_hs_ospi_src_gate,
    mux_cfg := some k230_hs_ospi_src_mux }

/-- A deliberately malformed table entry for exercising the registration
invariant (spec section 8's end-to-end scenario): a mux node declaring only
one parent. -/
def k230_test_bad_mux : K230ClkCfg :=
  { name := "bad_mux", read_only := false, num_parent := 1,
    rate_cfg := none, rate_cfg_c := none, gate_cfg := none,
    mux_cfg := some k230_hs_ospi_src_mux }

/-- All-zero register bank, used as a concrete initial state. -/
def zeroRegs : RegState := fun _ => 0

/-- All-ones (32-bit) register bank, used as a concrete initial state. -/
def onesRegs : RegState := fun _ => 2 ^ 32 - 1

/-- A reversed-polarity gate (the GateSpec type supports it even though the
current table only instantiates normal polarity), used as a concrete input. -/
def k230_test_reversed_gate : K230GateCfg :=
  { gate_reg_off := 0x18, gate_bit_enable := 24, gate_bit_reverse := true }

/-- Helper: registering a table whose prefix all succeeds concatenates the
prefix names before whatever the remainder of the walk produces. -/
theorem k230_register_clks_append_ok (pre rest : List K230ClkCfg)
    (hpre : ∀ c ∈ pre, k230_register_clk c = .ok ()) :
    k230_register_clks (pre ++ rest) =
      ((k230_register_clks rest).1,
        pre.map K230ClkCfg.name ++ (k230_register_clks rest).2) := by
  induction pre with
  | nil => simp [k230_register_clks]
  | cons c cs ih =>
    have hc : k230_register_clk c = .ok () := hpre c (by simp)
    have hcs : ∀ x ∈ cs, k230_register_clk x = .ok () :=
      fun x hx => hpre x (by simp [hx])
    simp [k230_register_clks, hc, ih hcs]

/-- C9: a composite clock with no rate config returns the parent rate
unchanged from get_rate, for every parent rate, performing no register
access. -/
theorem c9_get_rate_without_rate_cfg (rcc : Option K230RateCfgC)
    (parent_rate : Nat) (σ : RegState) :
    k230_clk_get_rate none rcc parent_rate σ = (parent_rate, []) := rfl

/-- C2 (code bug evidence): enable() does set the gate bit for normal
polarity (and clear it for reversed polarity), but is_enabled() then reports
0 (disabled) in both polarities, because its polarity branches are the
mirror image of enable's. -/
theorem c2_is_enabled_contradicts_enable :
    readl (k230_clk_enable k230_cpu0_src_gate zeroRegs) 0 = 1 ∧
    k230_clk_is_enabled k230_cpu0_src_gate
      (k230_clk_enable k230_cpu0_src_gate zeroRegs) = 0 ∧
    readl (k230_clk_enable k230_test_reversed_gate onesRegs) 0x18 =
      2 ^ 32 - 1 - 2 ^ 24 ∧
    k230_clk_is_enabled k230_test_reversed_gate
      (k230_clk_enable k230_test_reversed_gate onesRegs) = 0 := by
  refine ⟨rfl, rfl, rfl, rfl⟩

/-- C4 (code bug evidence): on the only mux clock of the table
(hs_ospi_src: register 0x20, shift 18, mask 0x1), set_parent(1) writes the
byte ((1 & 1) << 18) truncated to a u8, which is 0, and get_parent returns
the raw byte, so the round trip yields 0 rather than 1. -/
theorem c4_mux_round_trip_returns_zero :
    k230_clk_get_parent k230_hs_ospi_src_mux
      (k230_clk_set_parent k230_hs_ospi_src_mux 1 zeroRegs) = 0 := rfl

/-- C3: set_rate rejects a zero target, a target above the parent rate, a
zero parent rate, and any request on a read-only clock, each with a nonzero
error (-EINVAL resp. -EPERM), leaving the register state untouched and
performing no register access. -/
theorem c3_set_rate_rejects_without_register_access (read_only : Bool)
    (rc : K230RateCfg) (rcc : Option K230RateCfgC) (rate parent_rate : Nat)
    (σ : RegState) :
    ((rate = 0 ∨ parent_rate < rate ∨ parent_rate = 0) →
      k230_clk_set_rate read_only rc rcc rate parent_rate σ =
        (.error (-22), σ, [])) ∧
    (read_only = true → 0 < rate → rate ≤ parent_rate →
      k230_clk_set_rate read_only rc rcc rate parent_rate σ =
        (.error (-1), σ, [])) := by
  constructor
  · intro h
    have hcond : rate > parent_rate ∨ rate = 0 ∨ parent_rate = 0 := by omega
    simp only [k230_clk_set_rate, if_pos hcond]
  · intro hro h1 h2
    have hcond : ¬(rate > parent_rate ∨ rate = 0 ∨ parent_rate = 0) := by
      omega
    simp only [k230_clk_set_rate, if_neg hcond, hro, if_pos trivial, if_true]

/-- C3 witness: concrete rejections on the ls_uart0 rate config. -/
theorem c3_witness :
    k230_clk_set_rate false k230_ls_uart0_rate none 0 100 zeroRegs =
      (.error (-22), zeroRegs, []) ∧
    k230_clk_set_rate true k230_ls_uart0_rate none 50 100 zeroRegs =
      (.error (-1), zeroRegs, []) :=
  ⟨(c3_set_rate_rejects_without_register_access false k230_ls_uart0_rate
      none 0 100 zeroRegs).1 (Or.inl rfl),
   (c3_set_rate_rejects_without_register_access true k230_ls_uart0_rate
      none 50 100 zeroRegs).2 rfl (by decide) (by decide)⟩

/-- C10: set_parent is a blind byte write: the stored byte equals the
shifted masked index truncated to 8 bits, independent of the register's
previous contents, and every bit outside the (truncated) shifted mask is
left cleared. -/
theorem c10_set_parent_blind_write (m : K230MuxCfg) (index : Nat)
    (σ : RegState) :
    readb (k230_clk_set_parent m index σ) m.mux_reg_off =
      ((m.mux_reg_mask &&& index) <<< m.mux_reg_shift) % 2 ^ 8 ∧
    ∀ b : Nat,
      ((m.mux_reg_mask <<< m.mux_reg_shift) % 2 ^ 8).testBit b = false →
      (readb (k230_clk_set_parent m index σ) m.mux_reg_off).testBit b =
        false := by
  have hval : readb (k230_clk_set_parent m index σ) m.mux_reg_off =
      ((m.mux_reg_mask &&& index) <<< m.mux_reg_shift) % 2 ^ 8 := by
    simp [readb, writeb, k230_clk_set_parent, Nat.mod_mod_of_dvd]
  refine ⟨hval, fun b hb => ?_⟩
  rw [hval]
  simp only [Nat.testBit_mod_two_pow, Nat.testBit_shiftLeft,
    Nat.testBit_and] at hb ⊢
  rcases Bool.and_eq_false_iff.mp hb with h | h
  · simp [h]
  · rcases Bool.and_eq_false_iff.mp h with h' | h'
    · simp [h']
    · simp [h']

/-- C10 witness: concrete blind write on the hs_ospi_src mux. -/
theorem c10_witness :
    readb (k230_clk_set_parent k230_hs_ospi_src_mux 1 zeroRegs) 0x20 =
      ((k230_hs_ospi_src_mux.mux_reg_mask &&& 1) <<<
        k230_hs_ospi_src_mux.mux_reg_shift) % 2 ^ 8 ∧
    (readb (k230_clk_set_parent k230_hs_ospi_src_mux 1 zeroRegs)
      0x20).testBit 0 = false :=
  ⟨(c10_set_parent_blind_write k230_hs_ospi_src_mux 1 zeroRegs).1,
   (c10_set_parent_blind_write k230_hs_ospi_src_mux 1 zeroRegs).2 0
     (by decide)⟩

/-- C8: a clock config carrying a mux but declaring fewer than 2 parents
fails registration with -EINVAL, and the table walk aborts on that first
failure: only the nodes preceding it are registered, none after it. -/
theorem c8_mux_underpopulated_aborts_build (pre post : List K230ClkCfg)
    (bad : K230ClkCfg) (hmux : bad.mux_cfg.isSome = true)
    (hnp : bad.num_parent < 2)
    (hpre : ∀ c ∈ pre, k230_register_clk c = .ok ()) :
    k230_register_clk bad = .error (-22) ∧
    k230_register_clks (pre ++ bad :: post) =
      (.error (-22), pre.map K230ClkCfg.name) := by
  have hbad : k230_register_clk bad = .error (-22) := by
    simp [k230_register_clk, hmux, hnp]
  refine ⟨hbad, ?_⟩
  rw [k230_register_clks_append_ok pre (bad :: post) hpre]
  simp [k230_register_clks, hbad]

/-- C8 witness: a table with a malformed mux node in third position aborts
with only the first two nodes registered. -/
theorem c8_witness :
    k230_register_clk k230_test_bad_mux = .error (-22) ∧
    k230_register_clks
      ([k230_cpu0_src, k230_pmu_pclk] ++ k230_test_bad_mux ::
        [k230_hs_ospi_src]) =
      (.error (-22), [k230_cpu0_src, k230_pmu_pclk].map K230ClkCfg.name) :=
  c8_mux_underpopulated_aborts_build [k230_cpu0_src, k230_pmu_pclk]
    [k230_hs_ospi_src] k230_test_bad_mux (by decide) (by decide)
    (by intro c hc; fin_cases hc <;> rfl)

/-- C7: the MulAndDiv branch of the approximation engine selects the
9-entry codec table for the codec ADC/DAC register offsets and the 20-entry
pdm table for the audio/pdm register offsets, returning the pre-computed
(div, mul) pair on an exact rate match, and fails with -EINVAL for any other
register offset. -/
theorem c7_mul_div_table_lookup (mm mM dm dM parent_rate off j : Nat) :
    ((off = K230_CLK_CODEC_ADC_MCLKDIV_OFFSET ∨
      off = K230_CLK_CODEC_DAC_MCLKDIV_OFFSET) → j < 9 →
      k230_clk_find_approximate off mm mM dm dM .K230_MUL_DIV
        (codec_clk.getD j 0) parent_rate 0 0 =
        .ok (codec_div.getD j (0, 0))) ∧
    ((off = K230_CLK_AUDIO_CLKDIV_OFFSET ∨
      off = K230_CLK_PDM_CLKDIV_OFFSET) → j < 20 →
      k230_clk_find_approximate off mm mM dm dM .K230_MUL_DIV
        (pdm_clk.getD j 0) parent_rate 0 0 = .ok (pdm_div.getD j (0, 0))) ∧
    (off ≠ K230_CLK_CODEC_ADC_MCLKDIV_OFFSET →
      off ≠ K230_CLK_CODEC_DAC_MCLKDIV_OFFSET →
      off ≠ K230_CLK_AUDIO_CLKDIV_OFFSET →
      off ≠ K230_CLK_PDM_CLKDIV_OFFSET → ∀ rate,
      k230_clk_find_approximate off mm mM dm dM .K230_MUL_DIV rate
        parent_rate 0 0 = .error (-22)) := by
  refine ⟨?_, ?_, ?_⟩
  · intro hoff hj
    interval_cases j <;> rcases hoff with h | h <;> subst h <;> rfl
  · intro hoff hj
    interval_cases j <;> rcases hoff with h | h <;> subst h <;> rfl
  · intro h1 h2 h3 h4 rate
    simp [k230_clk_find_approximate, h1, h2, h3, h4]

/-- C7 witness: concrete lookups (codec entry 5, pdm entry 7) and a
rejected offset. -/
theorem c7_witness :
    k230_clk_find_approximate 0x38 0 0 0 0 .K230_MUL_DIV
      (codec_clk.getD 5 0) 0 0 0 = .ok (codec_div.getD 5 (0, 0)) ∧
    k230_clk_find_approximate 0x40 0 0 0 0 .K230_MUL_DIV
      (pdm_clk.getD 7 0) 0 0 0 = .ok (pdm_div.getD 7 (0, 0)) ∧
    k230_clk_find_approximate 0x44 0 0 0 0 .K230_MUL_DIV 5644800 0 0 0 =
      .error (-22) :=
  ⟨(c7_mul_div_table_lookup 0 0 0 0 0 0x38 5).1 (Or.inl rfl) (by decide),
   (c7_mul_div_table_lookup 0 0 0 0 0 0x40 7).2.1 (Or.inr rfl) (by decide),
   (c7_mul_div_table_lookup 0 0 0 0 0 0x44 0).2.2 (by decide) (by decide)
     (by decide) (by decide) 5644800⟩

/-- Helper: a masked single-bit test is nonzero exactly when that bit is
set. -/
theorem and_two_pow_ne_zero_iff (x i : Nat) :
    x &&& 2 ^ i ≠ 0 ↔ x.testBit i = true := by
  constructor
  · intro h
    obtain ⟨b, hb⟩ := Nat.ne_zero_implies_bit_true h
    rw [Nat.testBit_and, Nat.testBit_two_pow] at hb
    rcases Bool.and_eq_true_iff.mp hb with ⟨hx, hi⟩
    simpa [of_decide_eq_true hi] using hx
  · intro h hzero
    have : (x &&& 2 ^ i).testBit i = true := by
      simp [Nat.testBit_and, h, Nat.testBit_two_pow]
    rw [hzero] at this
    simp at this

/-- C1: PLL get_rate is the bypass passthrough / unlocked sentinel / exact
floor formula of the spec: the divider fields extracted from the divider
register, each raw value plus one, satisfy 1 ≤ R ≤ 64, 1 ≤ F ≤ 2^17,
1 ≤ OD ≤ 16 (R 6-bit, F 17-bit, OD 4-bit); bypass set returns the parent
rate; lock clear returns 0; otherwise the result is
floor(parent_rate * F / (R * OD)) with no 64-bit truncation. -/
theorem c1_pll_get_rate_spec (bypass lock div parent_rate : Nat)
    (hb : bypass < 2 ^ 32) (hl : lock < 2 ^ 32) (hd : div < 2 ^ 32)
    (hp : parent_rate < 2 ^ 47) :
    (1 ≤ ((div >>> 16) &&& 0x3F) + 1 ∧ ((div >>> 16) &&& 0x3F) + 1 ≤ 64) ∧
    (1 ≤ (div &&& 0x1FFFF) + 1 ∧ (div &&& 0x1FFFF) + 1 ≤ 2 ^ 17) ∧
    (1 ≤ ((div >>> 24) &&& 0xF) + 1 ∧ ((div >>> 24) &&& 0xF) + 1 ≤ 16) ∧
    (bypass.testBit 19 = true →
      k230_pll_get_rate bypass lock div parent_rate = parent_rate) ∧
    (bypass.testBit 19 = false → lock.testBit 0 = false →
      k230_pll_get_rate bypass lock div parent_rate = 0) ∧
    (bypass.testBit 19 = false → lock.testBit 0 = true →
      k230_pll_get_rate bypass lock div parent_rate =
        parent_rate * ((div &&& 0x1FFFF) + 1) /
          ((((div >>> 16) &&& 0x3F) + 1) * (((div >>> 24) &&& 0xF) + 1))) := by
  have hb' : bypass % 2 ^ 32 = bypass := Nat.mod_eq_of_lt hb
  have hl' : lock % 2 ^ 32 = lock := Nat.mod_eq_of_lt hl
  have hd' : div % 2 ^ 32 = div := Nat.mod_eq_of_lt hd
  have hr : (div >>> 16) &&& 0x3F ≤ 0x3F := Nat.and_le_right
  have hf : div &&& 0x1FFFF ≤ 0x1FFFF := Nat.and_le_right
  have hod : (div >>> 24) &&& 0xF ≤ 0xF := Nat.and_le_right
  have h19 : (1 : Nat) <<< 19 = 2 ^ 19 := Nat.one_shiftLeft 19
  refine ⟨⟨by omega, by omega⟩, ⟨by omega, by omega⟩, ⟨by omega, by omega⟩,
    ?_, ?_, ?_⟩
  · intro hbit
    rw [k230_pll_get_rate, hb', h19,
      if_pos ((and_two_pow_ne_zero_iff bypass 19).mpr hbit)]
  · intro hbit hlbit
    have hnb : ¬bypass &&& 2 ^ 19 ≠ 0 := fun h =>
      by simpa [hbit] using (and_two_pow_ne_zero_iff bypass 19).mp h
    have hlz : lock &&& 1 = 0 := by
      by_contra h
      have := (and_two_pow_ne_zero_iff lock 0).mp (by simp at h; simpa using h)
      simp [hlbit] at this
    rw [k230_pll_get_rate, hb', h19, if_neg hnb, hl', if_pos hlz]
  · intro hbit hlbit
    have hnb : ¬bypass &&& 2 ^ 19 ≠ 0 := fun h =>
      by simpa [hbit] using (and_two_pow_ne_zero_iff bypass 19).mp h
    have hlnz : ¬lock &&& 1 = 0 := by
      intro h
      have : lock &&& 2 ^ 0 ≠ 0 := (and_two_pow_ne_zero_iff lock 0).mpr hlbit
      exact this (by simpa using h)
    rw [k230_pll_get_rate, hb', h19, if_neg hnb, hl', if_neg hlnz]
    simp only [hd', Nat.shiftRight_zero]
    apply Nat.mod_eq_of_lt
    calc parent_rate * ((div &&& 0x1FFFF) + 1) /
        ((((div >>> 16) &&& 0x3F) + 1) * (((div >>> 24) &&& 0xF) + 1)) ≤
        parent_rate * ((div &&& 0x1FFFF) + 1) := Nat.div_le_self _ _
      _ ≤ parent_rate * 2 ^ 17 := Nat.mul_le_mul_left _ (by omega)
      _ < 2 ^ 47 * 2 ^ 17 := by
          have : (0 : Nat) < 2 ^ 17 := by norm_num
          exact (Nat.mul_lt_mul_right this).mpr hp
      _ = 2 ^ 64 := by norm_num

/-- C1 witness: the three branches at concrete register values
(div register 16908387 holds raw fields F=99, R=2, OD=1). -/
theorem c1_witness :
    k230_pll_get_rate (2 ^ 19) 0 0 24000000 = 24000000 ∧
    k230_pll_get_rate 0 0 16908387 24000000 = 0 ∧
    k230_pll_get_rate 0 1 16908387 24000000 = 400000000 :=
  ⟨(c1_pll_get_rate_spec (2 ^ 19) 0 0 24000000 (by decide) (by decide)
      (by decide) (by decide)).2.2.2.1 (by decide),
   (c1_pll_get_rate_spec 0 0 16908387 24000000 (by decide) (by decide)
      (by decide) (by decide)).2.2.2.2.1 (by decide) (by decide),
   ((c1_pll_get_rate_spec 0 1 16908387 24000000 (by decide) (by decide)
      (by decide) (by decide)).2.2.2.2.2 (by decide) (by decide)).trans
     (by decide)⟩

/-- Helper: full specification of the approximation scan loop.  Starting
from candidate `m` (with deviation `dev m`) and scanning `n` further
candidates `i, i+1, ...`, the final candidate is the earliest one attaining
the minimal deviation among `{m} ∪ [i, i+n)`. -/
theorem k230_scan_spec (dev : Nat → Nat) (n : Nat) :
    ∀ i m, m < i →
    ∃ m', k230_scan dev (dev m, m) i n = (dev m', m') ∧
      (m' = m ∨ (i ≤ m' ∧ m' < i + n)) ∧
      dev m' ≤ dev m ∧
      (∀ j, i ≤ j → j < i + n → dev m' ≤ dev j) ∧
      (dev m' = dev m → m' ≤ m) ∧
      (∀ j, i ≤ j → j < i + n → dev m' = dev j → m' ≤ j) := by
  induction n with
  | zero =>
    intro i m _
    exact ⟨m, rfl, Or.inl rfl, le_refl _,
      fun j h1 h2 => absurd h2 (by omega), fun _ => le_refl m,
      fun j h1 h2 _ => absurd h2 (by omega)⟩
  | succ n ih =>
    intro i m him
    by_cases hc : dev i < dev m
    · obtain ⟨m', hs, hmem, hle, hall, htie, htiej⟩ := ih (i + 1) i (by omega)
      refine ⟨m', ?_, ?_, ?_, ?_, ?_, ?_⟩
      · simpa [k230_scan, hc] using hs
      · rcases hmem with rfl | ⟨h1, h2⟩
        · exact Or.inr ⟨le_refl _, by omega⟩
        · exact Or.inr ⟨by omega, by omega⟩
      · exact le_trans hle (le_of_lt hc)
      · intro j h1 h2
        by_cases hj : j = i
        · subst hj; exact hle
        · exact hall j (by omega) (by omega)
      · intro he
        have h1 : dev m' ≤ dev i := hle
        omega
      · intro j h1 h2 he
        by_cases hj : j = i
        · subst hj; exact htie he
        · exact htiej j (by omega) (by omega) he
    · obtain ⟨m', hs, hmem, hle, hall, htie, htiej⟩ := ih (i + 1) m (by omega)
      refine ⟨m', ?_, ?_, hle, ?_, htie, ?_⟩
      · simpa [k230_scan, hc] using hs
      · rcases hmem with h | ⟨h1, h2⟩
        · exact Or.inl h
        · exact Or.inr ⟨by omega, by omega⟩
      · intro j h1 h2
        by_cases hj : j = i
        · subst hj; omega
        · exact hall j (by omega) (by omega)
      · intro j h1 h2 he
        by_cases hj : j = i
        · subst hj
          have h3 : dev m' = dev m := by omega
          have := htie h3
          omega
        · exact htiej j (by omega) (by omega) he

/-- Helper: when parent_rate * 1000 fits a signed 64-bit value,
perfect_divide is exactly floor(parent_rate * 1000 / rate). -/
theorem k230_perfect_divide_eq (parent_rate rate : Nat)
    (hp : parent_rate * 1000 < 2 ^ 63) :
    k230_perfect_divide parent_rate rate =
      ((parent_rate * 1000 / rate : Nat) : Int) := by
  have h1 : parent_rate * 1000 % 2 ^ 64 = parent_rate * 1000 :=
    Nat.mod_eq_of_lt (by omega)
  have h2 : parent_rate * 1000 / rate < 2 ^ 63 :=
    lt_of_le_of_lt (Nat.div_le_self _ _) hp
  rw [k230_perfect_divide, toLong, h1, if_pos h2]

/-- C6: for K230_MUL the engine fixes div = div_max, picks a multiplier in
[mul_min, mul_max], and among all candidates in that range its deviation
|perfect - floor(div_max*1000/x)| (perfect = floor(parent*1000/target)) is
minimal, with ties resolved to the smaller multiplier; K230_DIV is the
symmetric statement over divisors in [div_min, div_max] with the multiplier
fixed at mul_max. -/
theorem c6_approximation_tie_break (off mm mM dm dM rate parent_rate : Nat)
    (hmmM : mm ≤ mM) (hdmM : dm ≤ dM) (hp : parent_rate * 1000 < 2 ^ 63) :
    (∀ d m x,
      k230_clk_find_approximate off mm mM dm dM .K230_MUL rate parent_rate
        0 0 = .ok (d, m) → mm ≤ x → x ≤ mM →
      d = dM ∧ mm ≤ m ∧ m ≤ mM ∧
      k230_mul_dev dM ((parent_rate * 1000 / rate : Nat) : Int) m ≤
        k230_mul_dev dM ((parent_rate * 1000 / rate : Nat) : Int) x ∧
      (k230_mul_dev dM ((parent_rate * 1000 / rate : Nat) : Int) x =
        k230_mul_dev dM ((parent_rate * 1000 / rate : Nat) : Int) m →
        m ≤ x)) ∧
    (∀ d m x,
      k230_clk_find_approximate off mm mM dm dM .K230_DIV rate parent_rate
        0 0 = .ok (d, m) → dm ≤ x → x ≤ dM →
      m = mM ∧ dm ≤ d ∧ d ≤ dM ∧
      k230_div_dev mM ((parent_rate * 1000 / rate : Nat) : Int) d ≤
        k230_div_dev mM ((parent_rate * 1000 / rate : Nat) : Int) x ∧
      (k230_div_dev mM ((parent_rate * 1000 / rate : Nat) : Int) x =
        k230_div_dev mM ((parent_rate * 1000 / rate : Nat) : Int) d →
        d ≤ x)) := by
  have hpd := k230_perfect_divide_eq parent_rate rate hp
  constructor
  · intro d m x hfind hx1 hx2
    obtain ⟨m', hs, hmem, hle, hall, htie, htiej⟩ :=
      k230_scan_spec (k230_mul_dev dM (k230_perfect_divide parent_rate rate))
        (mM - mm) (mm + 1) mm (by omega)
    simp only [k230_clk_find_approximate, hs, Except.ok.injEq,
      Prod.mk.injEq] at hfind
    obtain ⟨rfl, rfl⟩ := hfind
    have hrange : mm ≤ m' ∧ m' ≤ mM := by
      rcases hmem with rfl | ⟨h1, h2⟩ <;> omega
    refine ⟨rfl, hrange.1, hrange.2, ?_, ?_⟩
    · rw [← hpd]
      by_cases hx : x = mm
      · subst hx; exact hle
      · exact hall x (by omega) (by omega)
    · rw [← hpd]
      intro he
      by_cases hx : x = mm
      · subst hx; exact htie he.symm
      · exact htiej x (by omega) (by omega) he.symm
  · intro d m x hfind hx1 hx2
    obtain ⟨m', hs, hmem, hle, hall, htie, htiej⟩ :=
      k230_scan_spec (k230_div_dev mM (k230_perfect_divide parent_rate rate))
        (dM - dm) (dm + 1) dm (by omega)
    simp only [k230_clk_find_approximate, hs, Except.ok.injEq,
      Prod.mk.injEq] at hfind
    obtain ⟨rfl, rfl⟩ := hfind
    have hrange : dm ≤ m' ∧ m' ≤ dM := by
      rcases hmem with rfl | ⟨h1, h2⟩ <;> omega
    refine ⟨rfl, hrange.1, hrange.2, ?_, ?_⟩
    · rw [← hpd]
      by_cases hx : x = dm
      · subst hx; exact hle
      · exact hall x (by omega) (by omega)
    · rw [← hpd]
      intro he
      by_cases hx : x = dm
      · subst hx; exact htie he.symm
      · exact htiej x (by omega) (by omega) he.symm

/-- C6 witness: concrete engine runs (mul range [1,2] with div_max 2, and
div range [1,2] with mul_max 2, target 1, parent 1), compared against
candidate 1. -/
theorem c6_witness :
    ((2 : Nat) = 2 ∧ 1 ≤ 2 ∧ 2 ≤ 2 ∧
      k230_mul_dev 2 (1000 : Int) 2 ≤ k230_mul_dev 2 (1000 : Int) 1 ∧
      (k230_mul_dev 2 (1000 : Int) 1 = k230_mul_dev 2 (1000 : Int) 2 →
        2 ≤ 1)) ∧
    ((2 : Nat) = 2 ∧ 1 ≤ 2 ∧ 2 ≤ 2 ∧
      k230_div_dev 2 (1000 : Int) 2 ≤ k230_div_dev 2 (1000 : Int) 1 ∧
      (k230_div_dev 2 (1000 : Int) 1 = k230_div_dev 2 (1000 : Int) 2 →
        2 ≤ 1)) :=
  ⟨(c6_approximation_tie_break 0 1 2 1 2 1 1 (by decide) (by decide)
      (by decide)).1 2 2 1 rfl (by decide) (by decide),
   (c6_approximation_tie_break 0 1 2 1 2 1 1 (by decide) (by decide)
      (by decide)).2 2 2 1 rfl (by decide) (by decide)⟩

/-- C5 counterexample: on the ls_uart0 rate config (DivOnly, div in [1,8])
with parent_rate 11, round_rate(4) returns 3, but set_rate(3) re-runs the
approximation (perfect = 3666, choosing div = 4 over div = 3) and a
subsequent get_rate returns 2, not 3. -/
theorem c5_counterexample :
    k230_clk_round_rate k230_ls_uart0_rate 4 11 = 3 ∧
    (k230_clk_set_rate false k230_ls_uart0_rate none 3 11 zeroRegs).1 =
      .ok () ∧
    (k230_clk_get_rate (some k230_ls_uart0_rate) none 11
      (k230_clk_set_rate false k230_ls_uart0_rate none 3 11
        zeroRegs).2.1).1 = 2 :=
  ⟨rfl, rfl, rfl⟩

/-- Helper: extracting a `2^k - 1`-masked field at shift `s` from the
register value written by the set_rate protocol (cleared field, ORed new
value, ORed write-enable bit at `w`) recovers the masked value, provided
the field lies inside the 32-bit register and the write-enable bit lies
outside the field. -/
theorem k230_field_roundtrip (r v s k w : Nat) (hsk : s + k ≤ 32)
    (hdisj : w < s ∨ s + k ≤ w) :
    (((((r % 2 ^ 32) &&& compl32 (((2 ^ k - 1) <<< s) % 2 ^ 32)) |||
        (((v &&& (2 ^ k - 1)) <<< s) % 2 ^ 32) |||
        ((1 <<< w) % 2 ^ 32)) % 2 ^ 32 % 2 ^ 32) >>> s) &&& (2 ^ k - 1) =
      v &&& (2 ^ k - 1) := by
  apply Nat.eq_of_testBit_eq
  intro b
  by_cases hbk : b < k
  · have h1 : s + b < 32 := by omega
    have h3 : w ≠ s + b := by omega
    have d1 : decide (s + b < 32) = true := decide_eq_true h1
    have d2 : decide (s + b ≥ s) = true := decide_eq_true (by omega)
    have d3 : decide (w = s + b) = false := decide_eq_false h3
    have d4 : decide (b < k) = true := decide_eq_true hbk
    rw [Nat.one_shiftLeft]
    simp only [compl32, Nat.testBit_mod_two_pow, Nat.testBit_or,
      Nat.testBit_and, Nat.testBit_xor, Nat.testBit_shiftLeft,
      Nat.testBit_shiftRight, Nat.testBit_two_pow_sub_one,
      Nat.testBit_two_pow, Nat.add_sub_cancel_left, d1, d2, d3, d4,
      Bool.true_and, Bool.and_true, Bool.false_and, Bool.and_false,
      Bool.xor_self, Bool.false_or, Bool.or_false]
  · have d4 : decide (b < k) = false := decide_eq_false hbk
    simp only [Nat.testBit_and, Nat.testBit_two_pow_sub_one, d4,
      Bool.and_false]

/-- Helper: reading back the register just written. -/
theorem readl_writel_same (σ : RegState) (off v : Nat) :
    readl (writel σ off v) off = v % 2 ^ 32 % 2 ^ 32 := by
  simp [readl, writel]

/-- C5 (amended): for a MulOnly or DivOnly clock whose configuration is
well-formed (field mask is a contiguous 2^k - 1 mask inside the 32-bit
register, the factor ranges fit the mask, the multiplier mask is unused and
zero, and the write-enable bit lies outside the divisor field, as in every
such clock of the driver's table), and any target 0 < t ≤ parent_rate:
set_rate(t) succeeds and a subsequent get_rate returns exactly the value
round_rate(t) returns.  (The original claim — feeding round_rate's own
output back into set_rate reproduces it — fails; see the counterexample.) -/
theorem c5_amended_set_then_get_matches_round_rate (rc : K230RateCfg)
    (k t p : Nat) (σ : RegState)
    (hmethod : rc.method = .K230_MUL ∨ rc.method = .K230_DIV)
    (hmm1 : 1 ≤ rc.rate_mul_min) (hmmM : rc.rate_mul_min ≤ rc.rate_mul_max)
    (hdm1 : 1 ≤ rc.rate_div_min) (hdmM : rc.rate_div_min ≤ rc.rate_div_max)
    (hmask : rc.rate_div_mask = 2 ^ k - 1)
    (hsk : rc.rate_div_shift + k ≤ 32)
    (hfitM : rc.rate_mul_max ≤ 2 ^ k) (hfitD : rc.rate_div_max ≤ 2 ^ k)
    (hMlt : rc.rate_mul_max < 2 ^ 32) (hDlt : rc.rate_div_max < 2 ^ 32)
    (hmulmask : rc.rate_mul_mask = 0)
    (hdisj : rc.rate_write_enable_bit < rc.rate_div_shift ∨
      rc.rate_div_shift + k ≤ rc.rate_write_enable_bit)
    (ht : 0 < t) (htp : t ≤ p) :
    (k230_clk_set_rate false rc none t p σ).1 = .ok () ∧
    (k230_clk_get_rate (some rc) none p
      (k230_clk_set_rate false rc none t p σ).2.1).1 =
      k230_clk_round_rate rc t p := by
  have hcond : ¬(t > p ∨ t = 0 ∨ p = 0) := by omega
  rcases hmethod with hm | hm
  · obtain ⟨m', hs, hmem, hle, hall, htie, htiej⟩ :=
      k230_scan_spec (k230_mul_dev rc.rate_div_max (k230_perfect_divide p t))
        (rc.rate_mul_max - rc.rate_mul_min) (rc.rate_mul_min + 1)
        rc.rate_mul_min (by omega)
    have hfind : k230_clk_find_approximate rc.rate_reg_off rc.rate_mul_min
        rc.rate_mul_max rc.rate_div_min rc.rate_div_max .K230_MUL t p 0 0 =
        .ok (rc.rate_div_max, m') := by
      simp only [k230_clk_find_approximate, hs]
    have hm'range : rc.rate_mul_min ≤ m' ∧ m' ≤ rc.rate_mul_max := by
      rcases hmem with rfl | ⟨h1, h2⟩ <;> omega
    have hset : k230_clk_set_rate false rc none t p σ =
        (.ok (), writel σ rc.rate_reg_off
          ((((σ rc.rate_reg_off % 2 ^ 32) &&&
              compl32 ((rc.rate_div_mask <<< rc.rate_div_shift) % 2 ^ 32)) |||
            (((c_sub1 m' &&& rc.rate_div_mask) <<< rc.rate_div_shift) % 2 ^ 32)) |||
            ((1 <<< rc.rate_write_enable_bit) % 2 ^ 32)),
         [.read rc.rate_reg_off,
          .write rc.rate_reg_off
            (((((σ rc.rate_reg_off % 2 ^ 32) &&&
              compl32 ((rc.rate_div_mask <<< rc.rate_div_shift) % 2 ^ 32)) |||
            (((c_sub1 m' &&& rc.rate_div_mask) <<< rc.rate_div_shift) % 2 ^ 32)) |||
            ((1 <<< rc.rate_write_enable_bit) % 2 ^ 32)) % 2 ^ 32)]) := by
      simp only [k230_clk_set_rate, if_neg hcond, hm, hfind, readl,
        Bool.false_eq_true, if_false]
    have hround : k230_clk_round_rate rc t p =
        p * m' % 2 ^ 64 / rc.rate_div_max := by
      simp only [k230_clk_round_rate, hm, hfind]
    refine ⟨by rw [hset], ?_⟩
    rw [hset, hround]
    have hsub : c_sub1 m' = m' - 1 := by
      have h1 : 1 ≤ m' := le_trans hmm1 hm'range.1
      have h2 : m' < 2 ^ 32 := lt_of_le_of_lt hm'range.2 hMlt
      unfold c_sub1
      omega
    have hfield : (((((σ rc.rate_reg_off % 2 ^ 32) &&&
          compl32 ((rc.rate_div_mask <<< rc.rate_div_shift) % 2 ^ 32)) |||
        (((c_sub1 m' &&& rc.rate_div_mask) <<< rc.rate_div_shift) % 2 ^ 32) |||
        ((1 <<< rc.rate_write_enable_bit) % 2 ^ 32)) % 2 ^ 32 % 2 ^ 32) >>>
          rc.rate_div_shift) &&& rc.rate_div_mask = m' - 1 := by
      rw [hmask]
      rw [k230_field_roundtrip (σ rc.rate_reg_off) (c_sub1 m')
        rc.rate_div_shift k rc.rate_write_enable_bit hsk hdisj]
      rw [hsub]
      have hlt : m' - 1 < 2 ^ k := by
        have := hm'range.2
        omega
      exact Nat.and_pow_two_sub_one_of_lt_two_pow hlt
    simp only [k230_clk_get_rate, hm, readl_writel_same]
    rw [hfield]
    have hm'32 : m' - 1 + 1 = m' := by
      have h1 : 1 ≤ m' := le_trans hmm1 hm'range.1
      omega
    rw [hm'32, Nat.mod_eq_of_lt (lt_of_le_of_lt hm'range.2 hMlt)]
  · obtain ⟨d', hs, hmem, hle, hall, htie, htiej⟩ :=
      k230_scan_spec (k230_div_dev rc.rate_mul_max (k230_perfect_divide p t))
        (rc.rate_div_max - rc.rate_div_min) (rc.rate_div_min + 1)
        rc.rate_div_min (by omega)
    have hfind : k230_clk_find_approximate rc.rate_reg_off rc.rate_mul_min
        rc.rate_mul_max rc.rate_div_min rc.rate_div_max .K230_DIV t p 0 0 =
        .ok (d', rc.rate_mul_max) := by
      simp only [k230_clk_find_approximate, hs]
    have hd'range : rc.rate_div_min ≤ d' ∧ d' ≤ rc.rate_div_max := by
      rcases hmem with rfl | ⟨h1, h2⟩ <;> omega
    have hA : ((σ rc.rate_reg_off % 2 ^ 32) &&&
          compl32 ((rc.rate_div_mask <<< rc.rate_div_shift) % 2 ^ 32)) &&&
          compl32 ((rc.rate_mul_mask <<< rc.rate_mul_shift) % 2 ^ 32) =
        (σ rc.rate_reg_off % 2 ^ 32) &&&
          compl32 ((rc.rate_div_mask <<< rc.rate_div_shift) % 2 ^ 32) := by
      rw [hmulmask]
      have h0 : ((0 : Nat) <<< rc.rate_mul_shift) % 2 ^ 32 = 0 := by
        simp [Nat.zero_shiftLeft]
      rw [h0]
      have hc : compl32 0 = 2 ^ 32 - 1 := by simp [compl32]
      rw [hc]
      apply Nat.and_pow_two_sub_one_of_lt_two_pow
      exact lt_of_le_of_lt Nat.and_le_left (Nat.mod_lt _ (by norm_num))
    have hset : k230_clk_set_rate false rc none t p σ =
        (.ok (), writel σ rc.rate_reg_off
          ((((σ rc.rate_reg_off % 2 ^ 32) &&&
              compl32 ((rc.rate_div_mask <<< rc.rate_div_shift) % 2 ^ 32)) |||
            (((c_sub1 d' &&& rc.rate_div_mask) <<< rc.rate_div_shift) % 2 ^ 32)) |||
            ((1 <<< rc.rate_write_enable_bit) % 2 ^ 32)),
         [.read rc.rate_reg_off,
          .write rc.rate_reg_off
            (((((σ rc.rate_reg_off % 2 ^ 32) &&&
              compl32 ((rc.rate_div_mask <<< rc.rate_div_shift) % 2 ^ 32)) |||
            (((c_sub1 d' &&& rc.rate_div_mask) <<< rc.rate_div_shift) % 2 ^ 32)) |||
            ((1 <<< rc.rate_write_enable_bit) % 2 ^ 32)) % 2 ^ 32)]) := by
      simp only [k230_clk_set_rate, if_neg hcond, hm, hfind, readl,
        Bool.false_eq_true, if_false, hA]
    have hround : k230_clk_round_rate rc t p =
        p * rc.rate_mul_max % 2 ^ 64 / d' := by
      simp only [k230_clk_round_rate, hm, hfind]
    refine ⟨by rw [hset], ?_⟩
    rw [hset, hround]
    have hsub : c_sub1 d' = d' - 1 := by
      have h1 : 1 ≤ d' := le_trans hdm1 hd'range.1
      have h2 : d' < 2 ^ 32 := lt_of_le_of_lt hd'range.2 hDlt
      unfold c_sub1
      omega
    have hfield : (((((σ rc.rate_reg_off % 2 ^ 32) &&&
          compl32 ((rc.rate_div_mask <<< rc.rate_div_shift) % 2 ^ 32)) |||
        (((c_sub1 d' &&& rc.rate_div_mask) <<< rc.rate_div_shift) % 2 ^ 32) |||
        ((1 <<< rc.rate_write_enable_bit) % 2 ^ 32)) % 2 ^ 32 % 2 ^ 32) >>>
          rc.rate_div_shift) &&& rc.rate_div_mask = d' - 1 := by
      rw [hmask]
      rw [k230_field_roundtrip (σ rc.rate_reg_off) (c_sub1 d')
        rc.rate_div_shift k rc.rate_write_enable_bit hsk hdisj]
      rw [hsub]
      have hlt : d' - 1 < 2 ^ k := by
        have := hd'range.2
        omega
      exact Nat.and_pow_two_sub_one_of_lt_two_pow hlt
    simp only [k230_clk_get_rate, hm, readl_writel_same]
    rw [hfield]
    have hd'32 : d' - 1 + 1 = d' := by
      have h1 : 1 ≤ d' := le_trans hdm1 hd'range.1
      omega
    rw [hd'32, Nat.mod_eq_of_lt (lt_of_le_of_lt hd'range.2 hDlt)]

/-- C5 witness: set_rate(50) then get_rate matches round_rate(50) on the
ls_uart0 DivOnly clock with parent rate 100. -/
theorem c5_witness :
    (k230_clk_set_rate false k230_ls_uart0_rate none 50 100 zeroRegs).1 =
      .ok () ∧
    (k230_clk_get_rate (some k230_ls_uart0_rate) none 100
      (k230_clk_set_rate false k230_ls_uart0_rate none 50 100
        zeroRegs).2.1).1 =
      k230_clk_round_rate k230_ls_uart0_rate 50 100 :=
  c5_amended_set_then_get_matches_round_rate k230_ls_uart0_rate 3 50 100
    zeroRegs (Or.inr rfl) (by decide) (by decide) (by decide) (by decide)
    (by decide) (by decide) (by decide) (by decide) (by decide) (by decide)
    (by decide) (Or.inr (by decide)) (by decide) (by decide)
